import Mathlib

/-!
Verification development for the `noexcept` structured error-signaling
library.  The Python source (`module.py`, `exception.py`, `call.py`) is
shallowly embedded: Python `dict`s become insertion-ordered association
lists, the module singleton (`no`) becomes an explicit `NoState` record,
and the raise/return/exit behaviour of a call becomes a `CallResult`
value returned alongside the updated state.
-/

namespace Noexcept

/-- Ordered message list for one code (`nos[code]` in the source). -/
abbrev Msgs := List String

/-- A source location `(filename, lineno)`; either component may be `None`. -/
abbrev Loc := Option String × Option Int

/-- `NoBaseException.linked`: maps `(typeName, message)` of a linked cause to
the set of locations where it was observed (the Python `set` is modelled as
a duplicate-free list). -/
abbrev LinkedMap := List ((String × String) × List Loc)

/-- Python `d.get(k)` on an insertion-ordered dict modelled as an
association list. -/
def dictGet {α : Type} : List (Int × α) → Int → Option α
  | [], _ => none
  | (k, v) :: rest, key => if k = key then some v else dictGet rest key

/-- Python `k in d`. -/
def dictMem {α : Type} (d : List (Int × α)) (k : Int) : Bool :=
  (dictGet d k).isSome

/-- Python `d[k] = v`: replace in place if the key exists, else append
(insertion order preserved, as for a Python dict). -/
def dictSet {α : Type} : List (Int × α) → Int → α → List (Int × α)
  | [], k, v => [(k, v)]
  | (k', v') :: rest, k, v =>
      if k' = k then (k', v) :: rest else (k', v') :: dictSet rest k v

/-- `defaultdict(list)` append: `d[k].append(m)`, creating `d[k] = [m]` at the
end when the key is absent. -/
def dictAppend : List (Int × Msgs) → Int → String → List (Int × Msgs)
  | [], k, m => [(k, [m])]
  | (k', ms) :: rest, k, m =>
      if k' = k then (k', ms ++ [m]) :: rest else (k', ms) :: dictAppend rest k m

/-- `defaultdict(set)` add: `d[key].add(loc)`. -/
def linkedAdd : LinkedMap → (String × String) → Loc → LinkedMap
  | [], key, l => [(key, [l])]
  | (k', ls) :: rest, key, l =>
      if k' = key then (k', if l ∈ ls then ls else ls ++ [l]) :: rest
      else (k', ls) :: linkedAdd rest key l

/-- Python `defaultComplaint or f"Error {code}"` (both `None` and `""` are
falsy). -/
def orDefault (d : Option String) (code : Int) : String :=
  match d with
  | some s => if s = "" then "Error " ++ toString code else s
  | none => "Error " ++ toString code

/-- `NoBaseException._composeText`: header `[c1,c2,...]` followed by one
`\n`-prefixed line per message, in code-then-insertion order. -/
def composeText (nos : List (Int × Msgs)) : String :=
  "[" ++ String.intercalate "," (nos.map (fun p => toString p.1)) ++ "]"
    ++ String.join (nos.map (fun p => String.join (p.2.map (fun m => "\n" ++ m))))

/-- Descriptive record of an external failure: `type(exc).__name__`,
`str(exc)`, and the innermost traceback location (`(None, None)` when the
failure carries no traceback). -/
structure ExtFail where
  typeName : String
  msg : String
  loc : Loc
deriving DecidableEq

/-- The error-state entity `NoBaseException`.  `text` is the argument passed
to `Exception.__init__` (i.e. the value of `str(exc)`), fixed at
construction.  `nosCache` / `linkedCache` model the lazily created
`_nos_defaultdict` / `_linked_defaultdict` attributes (absent until the
first `addMessage` / `_recordLinkedException`). -/
structure NoExc where
  className : String
  nos : List (Int × Msgs)
  softCodes : List (Int × Bool)
  linked : LinkedMap
  nosCache : Option (List (Int × Msgs))
  linkedCache : Option LinkedMap
  text : String
deriving DecidableEq

/-- `NoBaseException.__init__(code, complaint, codes, linked,
defaultComplaint, softCodes)`.  `className` records the dynamic class used
for the construction (`type(self).__name__`). -/
def mkNoExc (className : String) (code : Int) (complaint : Option String)
    (codes : List (Int × Msgs)) (linked : LinkedMap)
    (defaultComplaint : Option String) (softCodes : List (Int × Bool)) : NoExc :=
  let nos1 := if dictMem codes code then codes
              else codes ++ [(code, [orDefault defaultComplaint code])]
  let nos2 := match complaint with
    | some s => if s = "" then nos1 else dictAppend nos1 code s
    | none => nos1
  ⟨className, nos2, softCodes, linked, none, none, composeText nos2⟩

/-- `str(exc)`: `Exception.__str__` returns the single argument stored by
`__init__`, which `NoBaseException.__init__` sets to `_composeText()`. -/
def strOf (e : NoExc) : String := e.text

/-- `NoBaseException.addMessage`: no-op on a falsy complaint; otherwise
appends through the cached `_nos_defaultdict` (created from the current
`nos` on first use, and NOT refreshed by later `addCode` calls) and
rebinds `nos` to a snapshot of the cache. -/
def NoExc.addMessage (e : NoExc) (code : Int) (complaint : Option String) : NoExc :=
  match complaint with
  | none => e
  | some s =>
      if s = "" then e
      else
        let cache := match e.nosCache with
          | some c => c
          | none => e.nos
        let cache2 := dictAppend cache code s
        { e with nos := cache2, nosCache := some cache2 }

/-- `NoBaseException.addCode`: insert the code with its default message if
absent; idempotent when present.  Mutates `nos` directly (the message
cache, if any, is left untouched). -/
def NoExc.addCode (e : NoExc) (code : Int) (defaultComplaint : Option String) : NoExc :=
  if dictMem e.nos code then e
  else { e with nos := e.nos ++ [(code, [orDefault defaultComplaint code])] }

/-- `NoBaseException._recordLinkedException`: add the failure's descriptive
`(type, message)` key with its location, through the cached
`_linked_defaultdict`. -/
def NoExc.recordLinkedException (e : NoExc) (f : ExtFail) : NoExc :=
  let cache := match e.linkedCache with
    | some c => c
    | none => e.linked
  let cache2 := linkedAdd cache (f.typeName, f.msg) f.loc
  { e with linked := cache2, linkedCache := some cache2 }

/-- An exception value passed into a call: either this system's own
`NoBaseException` or a foreign one (described by type name, message and
innermost traceback location). -/
inductive PyExc where
  | noExc (e : NoExc)
  | ext (typeName : String) (msg : String) (loc : Loc)
deriving DecidableEq

/-- The `(type, str, location)` descriptor `_recordLinkedException` derives
from an exception object. -/
def PyExc.descr : PyExc → ExtFail
  | .noExc e => ⟨e.className, e.text, (none, none)⟩
  | .ext t m l => ⟨t, m, l⟩

/-- A registry entry `(name, defaultComplaint, linkedCodes, soft)` stored by
`NoModule.likey`. -/
structure RegEntry where
  name : String
  defaultMsg : String
  linkedCodes : List Int
  soft : Bool
deriving DecidableEq

/-- The `no` module singleton: registry, the thread-local pending slot of
the current call chain, the shared `no.pending.value` slot, and the
`hideTraceback` flag. -/
structure NoState where
  registry : List (Int × RegEntry)
  pendingLocal : Option NoExc
  pendingGlobal : Option NoExc
  hideTraceback : Bool
deriving DecidableEq

/-- The state of a fresh `NoModule()`. -/
def initState : NoState := ⟨[], none, none, false⟩

/-- `_getPending`: thread-local slot first, falling back to the shared slot
(an exception object is always truthy in Python). -/
def getPending (st : NoState) : Option NoExc :=
  match st.pendingLocal with
  | some e => some e
  | none => st.pendingGlobal

/-- `_setPending`: writes the thread-local slot only. -/
def setPending (st : NoState) (e : NoExc) : NoState :=
  { st with pendingLocal := some e }

/-- `NoModule.likey`: register a code unless it already exists (silent
no-op on duplicates). -/
def NoState.likey (st : NoState) (code : Int) (defaultComplaint : String)
    (linkedCodes : Option (List Int)) (soft : Bool) : NoState :=
  if dictMem st.registry code then st
  else
    { st with registry := st.registry ++
        [(code,
          ⟨"Error" ++ toString code,
           if defaultComplaint = "" then "Error " ++ toString code else defaultComplaint,
           linkedCodes.getD [],
           soft⟩)] }

/-- `NoModule.dice`: clear both the shared and the thread-local pending
slots. -/
def NoState.dice (st : NoState) : NoState :=
  { st with pendingGlobal := none, pendingLocal := none }

/-- The receiver of a call: the module (`no(...)`) or a `NoBaseException`
instance (`exc(...)`). -/
inductive Ctx where
  | module
  | inst (e : NoExc)
deriving DecidableEq

/-- `_getRegistryEntry`: `(softFlag, defaultMessage)` for a code — from the
registry for the module receiver, from the instance's own `_softCodes`
(with the synthesized default message) otherwise. -/
def getRegistryEntry (st : NoState) (ctx : Ctx) (code : Int) : Bool × String :=
  match ctx with
  | .module =>
      match dictGet st.registry code with
      | some r => (r.soft, r.defaultMsg)
      | none => (false, "Error " ++ toString code)
  | .inst e => ((dictGet e.softCodes code).getD false, "Error " ++ toString code)

/-- The `for l in linked: exc._recordLinkedException(l)` loop of
`_makeOne`. -/
def recordAll : List PyExc → NoExc → NoExc
  | [], e => e
  | l :: ls, e => recordAll ls (e.recordLinkedException l.descr)

/-- One iteration of the `for extra in linkedCodes` loop of `_makeOne`: add
the auto-linked code with its registered (or synthesized) default message
and soft flag. -/
def addOneLinkedCode (st : NoState) (extra : Int) (e : NoExc) : NoExc :=
  let msg := match dictGet st.registry extra with
    | some r => r.defaultMsg
    | none => "Error " ++ toString extra
  let esoft := match dictGet st.registry extra with
    | some r => r.soft
    | none => false
  let e2 := e.addCode extra (some msg)
  { e2 with softCodes := dictSet e2.softCodes extra esoft }

/-- The `for extra in linkedCodes` loop of `_makeOne`. -/
def addLinkedCodes (st : NoState) : List Int → NoExc → NoExc
  | [], e => e
  | extra :: rest, e => addLinkedCodes st rest (addOneLinkedCode st extra e)

/-- `NoModule._makeOne`: construct a fresh error state for a code, looking
the code up in the registry (never failing — a synthesized default entry is
used for unregistered codes), recording any linked exceptions, then adding
the auto-linked codes. -/
def NoState.makeOne (st : NoState) (code : Int) (complaint : Option String)
    (linked : List PyExc) : NoExc :=
  let entry := dictGet st.registry code
  let excName := match entry with | some r => r.name | none => "NoBaseException"
  let defaultMsg := match entry with
    | some r => r.defaultMsg
    | none => "Error " ++ toString code
  let linkedCodes := match entry with | some r => r.linkedCodes | none => []
  let softFlag := match entry with | some r => r.soft | none => false
  let exc := mkNoExc excName code complaint [] [] (some defaultMsg) [(code, softFlag)]
  let exc2 := recordAll linked exc
  addLinkedCodes st linkedCodes exc2

/-- `NoModule.propagate`: add a new code (registered default message and
soft flag) to an existing error state. -/
def NoState.propagate (st : NoState) (e : NoExc) (newCode : Int) : NoExc :=
  let msg := match dictGet st.registry newCode with
    | some r => r.defaultMsg
    | none => "Error " ++ toString newCode
  let soft := match dictGet st.registry newCode with
    | some r => r.soft
    | none => false
  let e2 := e.addCode newCode (some msg)
  { e2 with softCodes := dictSet e2.softCodes newCode soft }

/-- The observable outcome of one call. -/
inductive CallResult where
  | ret
  | raised (e : NoExc)
  | raisedGroup (es : List NoExc)
  | exited (output : String) (status : Nat)
  | usageError (msg : String)
  | pyError (msg : String)
deriving DecidableEq

/-- `raze`: print the rendered exception text and `sys.exit(1)`. -/
def raze (e : NoExc) : CallResult := CallResult.exited e.text 1

/-- `raise ExceptionGroup("Multiple errors", exs)` — Python's
`ExceptionGroup` refuses an empty sequence with a `ValueError`. -/
def mkGroup (exs : List NoExc) : CallResult :=
  match exs with
  | [] => .pyError "ValueError: second argument (exceptions) must be a non-empty sequence"
  | _ => .raisedGroup exs

/-- `_handleSoftOrRaise`: stash into the pending store when the soft flag or
the per-call `soften` is set, else raise (or, in hide-traceback mode,
print the rendered text and exit with status 1). -/
def handleSoftOrRaise (st : NoState) (exc : NoExc) (softFlag soften : Bool) :
    NoState × CallResult :=
  if softFlag || soften then (setPending st exc, .ret)
  else if st.hideTraceback then (st, raze exc)
  else (st, .raised exc)

/-- `_handleEmptyCall`: raise the pending state if any (hide-traceback mode
exits instead); otherwise raise a fresh code-0 state (module receiver) or
the receiver itself (instance receiver). -/
def handleEmptyCall (st : NoState) (ctx : Ctx) : NoState × CallResult :=
  match getPending st with
  | some p => (st, if st.hideTraceback then raze p else .raised p)
  | none =>
      match ctx with
      | .module =>
          let e := st.makeOne 0 none []
          (st, if st.hideTraceback then raze e else .raised e)
      | .inst c => (st, if st.hideTraceback then raze c else .raised c)

/-- `_handleExceptionGroup`: one error state per code, raised together as an
exception group; the pending store is never touched. -/
def handleExceptionGroup (st : NoState) (ctx : Ctx) (codes : List Int)
    (complaint : Option String) : NoState × CallResult :=
  match ctx with
  | .module =>
      let exs := codes.map (fun c => st.makeOne c complaint [])
      (st, mkGroup exs)
  | .inst cE =>
      let exs := codes.map (fun c => mkNoExc cE.className c complaint [] [] none [])
      match exs with
      | [] => (st, if st.hideTraceback then .pyError "IndexError" else mkGroup [])
      | e0 :: _ => (st, if st.hideTraceback then raze e0 else mkGroup exs)

/-- The `3d) FRESH NEW EXCEPTION` tail of `_handleSingleCode` (also reached
by fall-through after a stashing `_handleSoftOrRaise` in branches 3b/3c). -/
def freshSingle (st : NoState) (ctx : Ctx) (code : Int) (complaint : Option String)
    (softFlag soften : Bool) : NoState × Ctx × CallResult :=
  let exc := match ctx with
    | .module => st.makeOne code complaint []
    | .inst c => mkNoExc c.className code complaint [] [] none []
  let pr := handleSoftOrRaise st exc softFlag soften
  (pr.1, ctx, pr.2)

/-- `_handleSingleCode`: early accumulation into a pending state (3a),
module propagation into an active own-type exception (3b, unreachable from
the dispatcher which always passes `exception=None`), instance propagation
(3c), else a fresh exception (3d).  Branches 3b/3c do not return after a
stashing `_handleSoftOrRaise`, so control falls through to 3d. -/
def handleSingleCode (st : NoState) (ctx : Ctx) (code : Int)
    (complaint : Option String) (soften : Bool) (exception : Option PyExc) :
    NoState × Ctx × CallResult :=
  let softFlag := (getRegistryEntry st ctx code).1
  let defaultMsg := (getRegistryEntry st ctx code).2
  match getPending st with
  | some pending =>
      let p := (pending.addCode code (some defaultMsg)).addMessage code complaint
      let p2 := { p with softCodes := dictSet p.softCodes code softFlag }
      (setPending st p2, ctx, .ret)
  | none =>
      match ctx, exception with
      | .module, some (.noExc e) =>
          let e2 := (st.propagate e code).addMessage code complaint
          let e3 := { e2 with softCodes := dictSet e2.softCodes code softFlag }
          let pr := handleSoftOrRaise st e3 softFlag soften
          (match pr.2 with
           | .ret => freshSingle pr.1 Ctx.module code complaint softFlag soften
           | r => (pr.1, Ctx.module, r))
      | .inst c, _ =>
          let c2 := (c.addCode code (some defaultMsg)).addMessage code complaint
          let c3 := { c2 with softCodes := dictSet c2.softCodes code softFlag }
          let pr := handleSoftOrRaise st c3 softFlag soften
          (match pr.2 with
           | .ret => freshSingle pr.1 (Ctx.inst c3) code complaint softFlag soften
           | r => (pr.1, Ctx.inst c3, r))
      | .module, _ => freshSingle st Ctx.module code complaint softFlag soften

/-- `_handleCodeExceptionLink`: module receiver builds a fresh state with
the exception linked; instance receiver adds the code and records the link
on itself; then raise-or-stash. -/
def handleCodeExceptionLink (st : NoState) (ctx : Ctx) (code : Int)
    (exception : PyExc) (complaint : Option String) (soften : Bool) :
    NoState × Ctx × CallResult :=
  let softFlag := (getRegistryEntry st ctx code).1
  let defaultMsg := (getRegistryEntry st ctx code).2
  match ctx with
  | .module =>
      let exc := st.makeOne code complaint [exception]
      let pr := handleSoftOrRaise st exc softFlag soften
      (pr.1, Ctx.module, pr.2)
  | .inst c =>
      let c2 := (c.addCode code (some defaultMsg)).recordLinkedException exception.descr
      let pr := handleSoftOrRaise st c2 softFlag soften
      (pr.1, Ctx.inst c2, pr.2)

/-- `_handleCodeMessage`: pending merge first; instance receivers append in
place (falling through to a fresh exception after a stashing
`_handleSoftOrRaise`); module receivers build a fresh state with the
message as complaint. -/
def handleCodeMessage (st : NoState) (ctx : Ctx) (code : Int)
    (complaint : String) (soften : Bool) : NoState × Ctx × CallResult :=
  let softFlag := (getRegistryEntry st ctx code).1
  let defaultMsg := (getRegistryEntry st ctx code).2
  match getPending st with
  | some pending =>
      let p := (pending.addCode code (some defaultMsg)).addMessage code (some complaint)
      let p2 := { p with softCodes := dictSet p.softCodes code softFlag }
      (setPending st p2, ctx, .ret)
  | none =>
      match ctx with
      | .inst c =>
          let c2 := (c.addCode code (some defaultMsg)).addMessage code (some complaint)
          let c3 := { c2 with softCodes := dictSet c2.softCodes code softFlag }
          let pr := handleSoftOrRaise st c3 softFlag soften
          (match pr.2 with
           | .ret =>
               let exc := mkNoExc c3.className code (some complaint) [] [] none []
               let pr2 := handleSoftOrRaise pr.1 exc softFlag soften
               (pr2.1, Ctx.inst c3, pr2.2)
           | r => (pr.1, Ctx.inst c3, r))
      | .module =>
          let exc := st.makeOne code (some complaint) []
          let pr := handleSoftOrRaise st exc softFlag soften
          (pr.1, Ctx.module, pr.2)

/-- One positional argument of a call. -/
inductive CallArg where
  | intA (c : Int)
  | strA (s : String)
  | listA (cs : List Int)
  | excA (e : PyExc)
deriving DecidableEq

/-- `_handleCall`: classify the argument tuple (first matching pattern wins,
in source order) and run the matching handler; a single exception argument
is a no-op; unmatched shapes raise a `TypeError`.  Note the code-message
shape passes `args[1]` as the complaint and drops the `complaint` keyword,
and the single-code shape always passes `exception=None`. -/
def handleCall (st : NoState) (ctx : Ctx) (args : List CallArg)
    (complaint : Option String) (soften : Bool) : NoState × Ctx × CallResult :=
  match args with
  | [] =>
      let pr := handleEmptyCall st ctx
      (pr.1, ctx, pr.2)
  | [CallArg.listA cs] =>
      let pr := handleExceptionGroup st ctx cs complaint
      (pr.1, ctx, pr.2)
  | [CallArg.excA _] => (st, ctx, .ret)
  | [CallArg.intA c] => handleSingleCode st ctx c complaint soften none
  | [CallArg.intA c, CallArg.excA e] => handleCodeExceptionLink st ctx c e complaint soften
  | [CallArg.intA c, CallArg.strA s] => handleCodeMessage st ctx c s soften
  | _ => (st, ctx, .usageError "Unsupported arguments for no()")

/-- The `no.complaints` inspection property restricted to pending state (the
`sys.exc_info()` fallback only applies inside an `except` block, outside
the modelled call API): flatten the pending state's per-code message
lists. -/
def NoState.complaints (st : NoState) : List String :=
  match getPending st with
  | some p => (p.nos.map Prod.snd).flatten
  | none => []

/-- A post-construction mutation of an error state: `addCode`, `addMessage`
or `_recordLinkedException`. -/
inductive MutOp where
  | addC (code : Int) (d : Option String)
  | addM (code : Int) (m : Option String)
  | record (f : ExtFail)
deriving DecidableEq

/-- Apply one mutation. -/
def applyOp (e : NoExc) : MutOp → NoExc
  | .addC code d => e.addCode code d
  | .addM code m => e.addMessage code m
  | .record f => e.recordLinkedException f

/-- Apply a sequence of mutations in order. -/
def applyOps (e : NoExc) : List MutOp → NoExc
  | [] => e
  | op :: ops => applyOps (applyOp e op) ops

end Noexcept

namespace Noexcept

theorem dictMem_append_self {α : Type} (d : List (Int × α)) (k : Int) (v : α) :
    dictMem (d ++ [(k, v)]) k = true := by
  induction d with
  | nil => simp [dictMem, dictGet]
  | cons hd tl ih =>
      obtain ⟨a, b⟩ := hd
      by_cases h : a = k
      · simp [dictMem, dictGet, h]
      · simpa [dictMem, dictGet, h] using ih

theorem addMessage_text (e : NoExc) (code : Int) (m : Option String) :
    (e.addMessage code m).text = e.text := by
  cases m with
  | none => rfl
  | some s =>
      by_cases h : s = ""
      · simp [NoExc.addMessage, h]
      · simp [NoExc.addMessage, h]

theorem addCode_text (e : NoExc) (code : Int) (d : Option String) :
    (e.addCode code d).text = e.text := by
  by_cases h : dictMem e.nos code = true
  · simp [NoExc.addCode, h]
  · simp [NoExc.addCode, h]

theorem record_text (e : NoExc) (f : ExtFail) :
    (e.recordLinkedException f).text = e.text := rfl

theorem applyOp_text (e : NoExc) (op : MutOp) : (applyOp e op).text = e.text := by
  cases op with
  | addC code d => exact addCode_text e code d
  | addM code m => exact addMessage_text e code m
  | record f => exact record_text e f

theorem applyOps_text (e : NoExc) (ops : List MutOp) :
    (applyOps e ops).text = e.text := by
  induction ops generalizing e with
  | nil => rfl
  | cons op ops ih => simpa [applyOps, applyOp_text] using ih (applyOp e op)

/-- Claim C5: registering a code a second time — with any message, linked
codes, or soft flag — is a silent no-op: the registry keeps the first
registration's entry unchanged and no error is raised (`likey` is total). -/
theorem claim5_registration_write_once (st : NoState) (c : Int)
    (m1 : String) (l1 : Option (List Int)) (s1 : Bool)
    (m2 : String) (l2 : Option (List Int)) (s2 : Bool) :
    (st.likey c m1 l1 s1).likey c m2 l2 s2 = st.likey c m1 l1 s1 := by
  by_cases h : dictMem st.registry c = true
  · simp [NoState.likey, h]
  · simp only [NoState.likey, h, Bool.false_eq_true, if_false, if_neg]
    simp [dictMem_append_self]

/-- Claim C8: rendering the text of an error state holding codes
`[404, 500]` with message lists `["Not Found"]` and
`["Server Error", "extra"]` yields the header `[404,500]` followed by
exactly those three message lines in code-then-insertion order. -/
theorem claim8_render_text :
    strOf (mkNoExc "NoBaseException" 404 none
        [(404, ["Not Found"]), (500, ["Server Error", "extra"])] [] none [])
      = "[404,500]" ++ "\n" ++ "Not Found" ++ "\n" ++ "Server Error" ++ "\n" ++ "extra"
    ∧ strOf (mkNoExc "NoBaseException" 404 none
        [(404, ["Not Found"]), (500, ["Server Error", "extra"])] [] none [])
      = String.intercalate "\n" ["[404,500]", "Not Found", "Server Error", "extra"] := by
  constructor
  · rfl
  · rfl

/-- Claim C9: `str(exc)` is fixed at construction: it equals the text
composed from the codes/messages present when `__init__` ran, and no
sequence of `addCode` / `addMessage` / `_recordLinkedException` operations
changes it; in particular it is independent of the linked-cause map, so
linked-cause summaries never appear in it. -/
theorem claim9_str_fixed (cn : String) (code : Int) (complaint : Option String)
    (codes : List (Int × Msgs)) (l : LinkedMap) (d : Option String)
    (s : List (Int × Bool)) (ops : List MutOp) :
    strOf (applyOps (mkNoExc cn code complaint codes l d s) ops)
      = composeText (mkNoExc cn code complaint codes l d s).nos
    ∧ strOf (applyOps (mkNoExc cn code complaint codes l d s) ops)
      = strOf (mkNoExc cn code complaint codes [] d s) := by
  have h1 := applyOps_text (mkNoExc cn code complaint codes l d s) ops
  exact ⟨by rw [strOf, h1]; rfl, by rw [strOf, h1]; rfl⟩

/-- Claim C10: a call whose single positional argument is an exception
object — whether foreign or of this system's own type — is a complete
no-op: it returns normally, raising nothing, and leaves the state, the
receiver, and the registry untouched. -/
theorem claim10_exception_arg_noop (st : NoState) (ctx : Ctx) (e : PyExc)
    (complaint : Option String) (soften : Bool) :
    handleCall st ctx [CallArg.excA e] complaint soften = (st, ctx, CallResult.ret) := rfl

end Noexcept

namespace Noexcept

theorem recordAll_nos (ls : List PyExc) (e : NoExc) : (recordAll ls e).nos = e.nos := by
  induction ls generalizing e with
  | nil => rfl
  | cons l ls ih =>
      simpa [recordAll, NoExc.recordLinkedException] using ih (e.recordLinkedException l.descr)

theorem addCode_head (e : NoExc) (code : Int) (d : Option String) (h : e.nos ≠ []) :
    (e.addCode code d).nos.head? = e.nos.head? ∧ (e.addCode code d).nos ≠ [] := by
  unfold NoExc.addCode
  by_cases hm : dictMem e.nos code = true
  · simp [hm, h]
  · cases hn : e.nos with
    | nil => exact absurd hn h
    | cons a rest =>
        rw [hn] at hm
        simp [hm, hn]

theorem addOneLinkedCode_head (st : NoState) (extra : Int) (e : NoExc) (h : e.nos ≠ []) :
    (addOneLinkedCode st extra e).nos.head? = e.nos.head?
    ∧ (addOneLinkedCode st extra e).nos ≠ [] := by
  unfold addOneLinkedCode
  exact addCode_head e extra _ h

theorem addLinkedCodes_head (st : NoState) (ls : List Int) (e : NoExc) (h : e.nos ≠ []) :
    (addLinkedCodes st ls e).nos.head? = e.nos.head? ∧ (addLinkedCodes st ls e).nos ≠ [] := by
  induction ls generalizing e with
  | nil => exact ⟨rfl, h⟩
  | cons extra ls ih =>
      obtain ⟨h1, h2⟩ := addOneLinkedCode_head st extra e h
      obtain ⟨h3, h4⟩ := ih (addOneLinkedCode st extra e) h2
      exact ⟨by rw [addLinkedCodes, h3, h1], by rw [addLinkedCodes]; exact h4⟩

theorem mkNoExc_nos_single (cn : String) (c : Int) (complaint : Option String)
    (linked : LinkedMap) (d : Option String) (sc : List (Int × Bool)) :
    ∃ ms, (mkNoExc cn c complaint [] linked d sc).nos = [(c, ms)] := by
  cases complaint with
  | none => exact ⟨[orDefault d c], rfl⟩
  | some s =>
      by_cases hs : s = ""
      · exact ⟨[orDefault d c], by simp [mkNoExc, dictMem, dictGet, hs]⟩
      · exact ⟨[orDefault d c, s], by simp [mkNoExc, dictMem, dictGet, dictAppend, hs]⟩

theorem makeOne_head (st : NoState) (c : Int) (complaint : Option String)
    (linked : List PyExc) :
    ((st.makeOne c complaint linked).nos.head?).map Prod.fst = some c := by
  cases hreg : dictGet st.registry c with
  | none =>
      simp only [NoState.makeOne, hreg]
      obtain ⟨ms, hms⟩ := mkNoExc_nos_single "NoBaseException" c complaint []
        (some ("Error " ++ toString c)) [(c, false)]
      have hrec := recordAll_nos linked (mkNoExc "NoBaseException" c complaint []
        [] (some ("Error " ++ toString c)) [(c, false)])
      have hne : (recordAll linked (mkNoExc "NoBaseException" c complaint []
          [] (some ("Error " ++ toString c)) [(c, false)])).nos ≠ [] := by
        rw [hrec, hms]; simp
      obtain ⟨hh, _⟩ := addLinkedCodes_head st [] _ hne
      rw [hh, hrec, hms]; rfl
  | some r =>
      simp only [NoState.makeOne, hreg]
      obtain ⟨ms, hms⟩ := mkNoExc_nos_single r.name c complaint []
        (some r.defaultMsg) [(c, r.soft)]
      have hrec := recordAll_nos linked (mkNoExc r.name c complaint []
        [] (some r.defaultMsg) [(c, r.soft)])
      have hne : (recordAll linked (mkNoExc r.name c complaint []
          [] (some r.defaultMsg) [(c, r.soft)])).nos ≠ [] := by
        rw [hrec, hms]; simp
      obtain ⟨hh, _⟩ := addLinkedCodes_head st r.linkedCodes _ hne
      rw [hh, hrec, hms]; rfl

end Noexcept

namespace Noexcept

/-- Claim C1: for the call shapes that produce or augment a concrete error
state for a code `c` when no pending state exists (single code, code plus
message, code plus linked exception — all via the module receiver), the
raise-or-stash policy applies: if `c`'s registered soft flag is true or the
caller passed `soften`, the state is stored into the pending store and the
call returns normally; otherwise it is raised — except that in
hide-traceback mode its rendered text is printed and the process exits
with status 1 instead. -/
theorem claim1_raise_or_stash_policy (st : NoState) (c : Int) (m : String)
    (f : PyExc) (complaint : Option String) (soften : Bool)
    (hPend : getPending st = none) :
    (handleCall st Ctx.module [CallArg.intA c] complaint soften =
      (if (getRegistryEntry st Ctx.module c).1 || soften then
        (setPending st (st.makeOne c complaint []), Ctx.module, CallResult.ret)
      else if st.hideTraceback then
        (st, Ctx.module, CallResult.exited (strOf (st.makeOne c complaint [])) 1)
      else (st, Ctx.module, CallResult.raised (st.makeOne c complaint []))))
    ∧ (handleCall st Ctx.module [CallArg.intA c, CallArg.strA m] complaint soften =
      (if (getRegistryEntry st Ctx.module c).1 || soften then
        (setPending st (st.makeOne c (some m) []), Ctx.module, CallResult.ret)
      else if st.hideTraceback then
        (st, Ctx.module, CallResult.exited (strOf (st.makeOne c (some m) [])) 1)
      else (st, Ctx.module, CallResult.raised (st.makeOne c (some m) []))))
    ∧ (handleCall st Ctx.module [CallArg.intA c, CallArg.excA f] complaint soften =
      (if (getRegistryEntry st Ctx.module c).1 || soften then
        (setPending st (st.makeOne c complaint [f]), Ctx.module, CallResult.ret)
      else if st.hideTraceback then
        (st, Ctx.module, CallResult.exited (strOf (st.makeOne c complaint [f])) 1)
      else (st, Ctx.module, CallResult.raised (st.makeOne c complaint [f])))) := by
  refine ⟨?_, ?_, ?_⟩ <;>
    simp only [handleCall, handleSingleCode, handleCodeMessage, handleCodeExceptionLink,
      hPend, freshSingle, handleSoftOrRaise, strOf, raze] <;>
    by_cases hs : ((getRegistryEntry st Ctx.module c).1 || soften) = true <;>
    by_cases ht : st.hideTraceback = true <;>
    simp [hs, ht]

/-- Witness for C1 at a concrete input: empty pending store in the initial
state, code 7, message "boom", a foreign ValueError. -/
theorem claim1_witness :
    getPending initState = none
    ∧ (handleCall initState Ctx.module [CallArg.intA 7] none false =
        (if (getRegistryEntry initState Ctx.module 7).1 || false then
          (setPending initState (initState.makeOne 7 none []), Ctx.module, CallResult.ret)
        else if initState.hideTraceback then
          (initState, Ctx.module, CallResult.exited (strOf (initState.makeOne 7 none [])) 1)
        else (initState, Ctx.module, CallResult.raised (initState.makeOne 7 none []))))
    ∧ (handleCall initState Ctx.module [CallArg.intA 7, CallArg.strA "boom"] none false =
        (if (getRegistryEntry initState Ctx.module 7).1 || false then
          (setPending initState (initState.makeOne 7 (some "boom") []), Ctx.module, CallResult.ret)
        else if initState.hideTraceback then
          (initState, Ctx.module, CallResult.exited (strOf (initState.makeOne 7 (some "boom") [])) 1)
        else (initState, Ctx.module, CallResult.raised (initState.makeOne 7 (some "boom") []))))
    ∧ (handleCall initState Ctx.module
          [CallArg.intA 7, CallArg.excA (PyExc.ext "ValueError" "v" (none, none))] none false =
        (if (getRegistryEntry initState Ctx.module 7).1 || false then
          (setPending initState (initState.makeOne 7 none [PyExc.ext "ValueError" "v" (none, none)]),
            Ctx.module, CallResult.ret)
        else if initState.hideTraceback then
          (initState, Ctx.module,
            CallResult.exited (strOf (initState.makeOne 7 none [PyExc.ext "ValueError" "v" (none, none)])) 1)
        else (initState, Ctx.module,
          CallResult.raised (initState.makeOne 7 none [PyExc.ext "ValueError" "v" (none, none)])))) :=
  ⟨rfl, claim1_raise_or_stash_policy initState 7 "boom"
    (PyExc.ext "ValueError" "v" (none, none)) none false rfl⟩

/-- Claim C4: an empty module call raises the pending error state when one
exists, leaving the state untouched (so a further empty call raises it
again) until `dice` clears both slots; with no pending state it raises a
synthesized error state whose primary code is 0. -/
theorem claim4_empty_call (st : NoState) (hH : st.hideTraceback = false) :
    (∀ p, getPending st = some p →
       handleCall st Ctx.module [] none false = (st, Ctx.module, CallResult.raised p))
    ∧ (getPending st = none →
       handleCall st Ctx.module [] none false
         = (st, Ctx.module, CallResult.raised (st.makeOne 0 none []))
       ∧ ((st.makeOne 0 none []).nos.head?).map Prod.fst = some 0)
    ∧ getPending st.dice = none := by
  refine ⟨?_, ?_, ?_⟩
  · intro p hp
    simp [handleCall, handleEmptyCall, hp, hH]
  · intro hp
    exact ⟨by simp [handleCall, handleEmptyCall, hp, hH], makeOne_head st 0 none []⟩
  · simp [NoState.dice, getPending]

/-- Witness for C4 at a concrete input: a state holding a pending error
state for code 7. -/
theorem claim4_witness :
    (setPending initState (mkNoExc "NoBaseException" 7 none [] [] none [])).hideTraceback = false
    ∧ ((∀ p, getPending (setPending initState (mkNoExc "NoBaseException" 7 none [] [] none [])) = some p →
         handleCall (setPending initState (mkNoExc "NoBaseException" 7 none [] [] none []))
             Ctx.module [] none false
           = (setPending initState (mkNoExc "NoBaseException" 7 none [] [] none []),
              Ctx.module, CallResult.raised p))
      ∧ (getPending (setPending initState (mkNoExc "NoBaseException" 7 none [] [] none [])) = none →
         handleCall (setPending initState (mkNoExc "NoBaseException" 7 none [] [] none []))
             Ctx.module [] none false
           = (setPending initState (mkNoExc "NoBaseException" 7 none [] [] none []),
              Ctx.module,
              CallResult.raised ((setPending initState (mkNoExc "NoBaseException" 7 none [] [] none [])).makeOne 0 none []))
         ∧ (((setPending initState (mkNoExc "NoBaseException" 7 none [] [] none [])).makeOne 0 none []).nos.head?).map Prod.fst = some 0)
      ∧ getPending (setPending initState (mkNoExc "NoBaseException" 7 none [] [] none [])).dice = none) :=
  ⟨rfl, claim4_empty_call (setPending initState (mkNoExc "NoBaseException" 7 none [] [] none [])) rfl⟩

/-- Claim C6: a single-code module call with a code that was never
registered never fails the lookup: with no pending state it constructs a
fresh error state whose message list for the code is exactly
`["Error {c}"]`, treats the code as hard (non-soft), and raises it. -/
theorem claim6_unregistered_code (st : NoState) (c : Int)
    (hReg : dictGet st.registry c = none) (hPend : getPending st = none)
    (hH : st.hideTraceback = false) :
    handleCall st Ctx.module [CallArg.intA c] none false
      = (st, Ctx.module, CallResult.raised (st.makeOne c none []))
    ∧ (st.makeOne c none []).nos = [(c, ["Error " ++ toString c])]
    ∧ (st.makeOne c none []).softCodes = [(c, false)] := by
  refine ⟨?_, ?_, ?_⟩
  · simp [handleCall, handleSingleCode, hPend, freshSingle, handleSoftOrRaise,
      getRegistryEntry, hReg, hH]
  · simp [NoState.makeOne, hReg, recordAll, addLinkedCodes, mkNoExc, dictMem, dictGet,
      orDefault]
  · simp [NoState.makeOne, hReg, recordAll, addLinkedCodes, mkNoExc, dictMem, dictGet]

/-- Witness for C6 at a concrete input: code 42 in the initial (empty)
state. -/
theorem claim6_witness :
    dictGet initState.registry 42 = none
    ∧ getPending initState = none
    ∧ initState.hideTraceback = false
    ∧ (handleCall initState Ctx.module [CallArg.intA 42] none false
        = (initState, Ctx.module, CallResult.raised (initState.makeOne 42 none []))
      ∧ (initState.makeOne 42 none []).nos = [(42, ["Error " ++ toString (42 : Int)])]
      ∧ (initState.makeOne 42 none []).softCodes = [(42, false)]) :=
  ⟨rfl, rfl, rfl, claim6_unregistered_code initState 42 rfl rfl rfl⟩

end Noexcept

namespace Noexcept

/-- Claim C7: a module call whose single positional argument is a non-empty
list of codes raises an aggregate holding one error state per code, in
order, each built for its code with the call's free-text complaint; the
state (and so the pending store) is left untouched, regardless of soft
flags or `soften`. -/
theorem claim7_code_list_aggregate (st : NoState) (cs : List Int)
    (complaint : Option String) (soften : Bool) (h : cs ≠ []) :
    handleCall st Ctx.module [CallArg.listA cs] complaint soften
      = (st, Ctx.module,
         CallResult.raisedGroup (cs.map (fun c => st.makeOne c complaint [])))
    ∧ (cs.map (fun c => st.makeOne c complaint [])).length = cs.length
    ∧ List.Forall₂ (fun e c => ((e : NoExc).nos.head?).map Prod.fst = some c)
        (cs.map (fun c => st.makeOne c complaint [])) cs := by
  refine ⟨?_, by simp, ?_⟩
  · cases cs with
    | nil => exact absurd rfl h
    | cons a rest => simp [handleCall, handleExceptionGroup, mkGroup]
  · clear h
    induction cs with
    | nil => exact List.Forall₂.nil
    | cons a rest ih => exact List.Forall₂.cons (makeOne_head st a complaint []) ih

/-- Witness for C7 at a concrete input: code list `[1, 2, 3]` in the initial
state. -/
theorem claim7_witness :
    ([1, 2, 3] : List Int) ≠ []
    ∧ (handleCall initState Ctx.module [CallArg.listA [1, 2, 3]] none false
        = (initState, Ctx.module,
           CallResult.raisedGroup (([1, 2, 3] : List Int).map (fun c => initState.makeOne c none [])))
      ∧ (([1, 2, 3] : List Int).map (fun c => initState.makeOne c none [])).length
        = ([1, 2, 3] : List Int).length
      ∧ List.Forall₂ (fun e c => ((e : NoExc).nos.head?).map Prod.fst = some c)
          (([1, 2, 3] : List Int).map (fun c => initState.makeOne c none [])) [1, 2, 3]) :=
  ⟨by decide, claim7_code_list_aggregate initState [1, 2, 3] none false (by decide)⟩

/-- Claim C2 counterexample: register 1001 soft and call `no(1001)` three
times with no custom complaint; every call returns normally, but the
pending message list afterwards holds the default message once —
`addCode` is idempotent on a present code — not three times as claimed. -/
theorem claim2_counterexample :
    (let st0 := NoState.likey initState 1001 "" none true
     let r1 := handleCall st0 Ctx.module [CallArg.intA 1001] none false
     let r2 := handleCall r1.1 Ctx.module [CallArg.intA 1001] none false
     let r3 := handleCall r2.1 Ctx.module [CallArg.intA 1001] none false
     r1.2.2 = CallResult.ret ∧ r2.2.2 = CallResult.ret ∧ r3.2.2 = CallResult.ret
     ∧ NoState.complaints r3.1 = ["Error 1001"]
     ∧ ¬ NoState.complaints r3.1 = ["Error 1001", "Error 1001", "Error 1001"]) := by
  decide

/-- Claim C2 as amended: register 1001 soft; three bare calls raise nothing
and leave exactly one pending key 1001 whose message list holds the
default message once (bare same-code soft calls are idempotent on the
message list); a repeated same-code soft call appends one more message
exactly when a custom complaint is supplied, still keeping the single
key. -/
theorem claim2_soft_accumulation_amended :
    (let st0 := NoState.likey initState 1001 "" none true
     let r1 := handleCall st0 Ctx.module [CallArg.intA 1001] none false
     let r2 := handleCall r1.1 Ctx.module [CallArg.intA 1001] none false
     let r3 := handleCall r2.1 Ctx.module [CallArg.intA 1001] none false
     let d1 := handleCall st0 Ctx.module [CallArg.intA 1001] (some "a") false
     let d2 := handleCall d1.1 Ctx.module [CallArg.intA 1001] (some "b") false
     let d3 := handleCall d2.1 Ctx.module [CallArg.intA 1001] (some "c") false
     (r1.2.2 = CallResult.ret ∧ r2.2.2 = CallResult.ret ∧ r3.2.2 = CallResult.ret)
     ∧ (getPending r3.1).map NoExc.nos = some [(1001, ["Error 1001"])]
     ∧ NoState.complaints r3.1 = ["Error 1001"]
     ∧ (d1.2.2 = CallResult.ret ∧ d2.2.2 = CallResult.ret ∧ d3.2.2 = CallResult.ret)
     ∧ (getPending d3.1).map NoExc.nos = some [(1001, ["Error 1001", "a", "b", "c"])]) := by
  decide

/-- Claim C3 at the failing input: with a pending soft state, two further
single-code merges with custom complaints return normally (the
pending-merge path wins and never raises, even for the hard codes 2 and
3), but the second merge records code 3 with messages `["c"]`: the default
message "Error 3" inserted by `addCode` is dropped when `addMessage`
rebuilds `nos` from its stale cached defaultdict. -/
theorem claim3_merge_drops_default :
    (let st0 := NoState.likey initState 1 "" none true
     let e1 := handleCall st0 Ctx.module [CallArg.intA 1] (some "a") false
     let e2 := handleCall e1.1 Ctx.module [CallArg.intA 2] (some "b") false
     let e3 := handleCall e2.1 Ctx.module [CallArg.intA 3] (some "c") false
     (e2.2.2 = CallResult.ret ∧ e3.2.2 = CallResult.ret)
     ∧ (getPending e3.1).map (fun p => dictGet p.nos 3) = some (some ["c"])
     ∧ ¬ (getPending e3.1).map (fun p => dictGet p.nos 3) = some (some ["Error 3", "c"])) := by
  decide

end Noexcept
